import Mathlib

/-!
# Verification of the partition reconciliation engine (`reloader`)

A shallow embedding, in Lean 4, of the parts of `reloader/main.py` (and the
spec-level partition index) that the specification's claims are about:

* `Athena.wait_for_completion` / `Athena.execute_and_wait` — the polling loop
  and the dispatch over terminal query statuses;
* `TablePartition._build_partition_query` — construction of the
  `ALTER TABLE ... ADD/DROP ... PARTITION ...` DDL strings;
* `Event.__init__` / `Event._convert_to_datetime` — event-attribute
  assignment and timestamp parsing via `strptime` with the literal format
  string `"%Y-%m-%dT%H:%M:%S%fZ"` found in the source;
* the partition-existence index (nested mapping built from a catalog scan);
* `S3Helper._parse_lifeycle_rules_for_expiration` and the reconciliation
  loop of `lambda_handler`.

Python strings are `String`, Python dicts with known insertion order are
association lists `List (String × String)`, raised exceptions are the
`Except` monad, and the unbounded polling loop is given explicit fuel.
-/

namespace Reloader

/-! ## `TablePartition._build_partition_query` (main.py lines 297-336) -/

/-- The body of the `for k, v in partition.items():` loop of
`_build_partition_query`.  `n` is `len(partition) - 1`, `i` is the running
counter (incremented only in the `else` branch, exactly as in the source),
and the accumulator pair is `(partition_str, location_statement)`. -/
def queryLoop (n : Nat) : Nat → List (String × String) → String × String → String × String
  | _, [], acc => acc
  | i, (k, v) :: rest, (pstr, loc) =>
    if i = n then
      queryLoop n i rest (pstr ++ k ++ "='" ++ v ++ "'", loc ++ v ++ "/")
    else
      queryLoop n (i + 1) rest (pstr ++ k ++ "='" ++ v ++ "'," , loc ++ v ++ "/")

/-- Model of `TablePartition._build_partition_query(bucket_loc, partition, action_string)`.
The Python `raise ValueError(...)` for an action other than `ADD`/`DROP`
becomes the `Except.error` branch (the spec calls this error
`InvalidActionError`). -/
def build_partition_query (table bucket_loc : String)
    (partition : List (String × String)) (action_string : String) :
    Except String String :=
  if action_string = "ADD" ∨ action_string = "DROP" then
    let action_conditional := if action_string = "ADD" then "IF NOT EXISTS" else "IF EXISTS"
    let n := partition.length - 1
    let res := queryLoop n 0 partition ("", "s3://" ++ bucket_loc ++ "/")
    let query := "ALTER TABLE " ++ table ++ " " ++ action_string ++ " " ++ action_conditional
      ++ " PARTITION (" ++ res.1 ++ ")"
    if action_string = "ADD" then
      Except.ok (query ++ " LOCATION '" ++ res.2 ++ "'")
    else
      Except.ok query
  else
    Except.error "action_string must be ADD or DROP"

/-- Specification-side rendering of the PARTITION clause: the key-value
pairs in key order, each as `k='v'`, separated by commas. -/
def partitionClauseSpec : List (String × String) → String
  | [] => ""
  | [kv] => kv.1 ++ "='" ++ kv.2 ++ "'"
  | kv :: rest => kv.1 ++ "='" ++ kv.2 ++ "'," ++ partitionClauseSpec rest

/-- Specification-side rendering of the location path segments: the key's
values in key order, each followed by a `/` separator. -/
def locationValuesSpec : List (String × String) → String
  | [] => ""
  | kv :: rest => kv.2 ++ "/" ++ locationValuesSpec rest

/-! ## `Athena` (main.py lines 54-284) -/

/-- One page of Athena query results (a `ResultSet`): rows of text columns. -/
abbrev ResultSet := List (List String)

/-- The `ExecutionResponse` TypedDict (main.py lines 54-58). -/
structure ExecutionResponse where
  execution_id : String
  execution_res_loc : String
deriving DecidableEq

/-- Model of `Athena._process_execution_response`: extract `QueryExecutionId` and
derive the result location; a missing or empty (falsy) id yields the empty
response. -/
def process_execution_response (output_loc : String)
    (query_execution_id : Option String) : ExecutionResponse :=
  match query_execution_id with
  | some execution_id =>
    if execution_id = "" then ⟨"", ""⟩
    else ⟨execution_id, output_loc ++ execution_id ++ ".txt"⟩
  | none => ⟨"", ""⟩

/-- The three terminal statuses of the polling loop in
`Athena.wait_for_completion` (`while status not in [...]`). -/
def terminalStatuses : List String := ["SUCCEEDED", "FAILED", "CANCELLED"]

/-- The fixed sleep between polls in `Athena.wait_for_completion`:
`sleep(0.25)`, i.e. 250 milliseconds. -/
def pollIntervalMs : Nat := 250

/-- Model of `Athena.wait_for_completion`, with the successive
`get_query_execution` states given by `statuses` and the unbounded `while`
loop given explicit fuel: `none` means the loop is still running after
`fuel` polls.  The loop starts from `status = "RUNNING"` (not terminal), so
at least one poll always happens; it returns the state carried by the first
poll whose status is terminal. -/
def wait_for_completion (statuses : Nat → String) : Nat → Nat → Option String
  | 0, _ => none
  | fuel + 1, i =>
    if statuses i ∈ terminalStatuses then some (statuses i)
    else wait_for_completion statuses fuel (i + 1)

/-- Errors raised by the Athena wrapper.  `queryFailed` models the
`raise Exception` of `Athena.failed` whose message carries the execution id
(the spec's `QueryFailedError`); `queryCancelled` the analogous raise of
`Athena.cancelled` (the spec's `QueryCancelledError`); `noHandler` the
`TypeError` from calling the `None` that `getattr(self, status.lower(),
None)` yields for a status without a handler method; `invalidAction` the
`ValueError` of `_build_partition_query`. -/
inductive QueryError where
  | queryFailed (execution_id : String)
  | queryCancelled (execution_id : String)
  | noHandler (status : String)
  | invalidAction (msg : String)
deriving DecidableEq

/-- A stub of the external Athena service: the `QueryExecutionId` returned
by `start_query_execution`, the successive execution states returned by
`get_query_execution`, and the result sets yielded by the
`get_query_results` paginator. -/
structure AthenaStub where
  startQueryId : Option String
  statuses : Nat → String
  resultPages : List ResultSet

/-- Model of `Athena.execute_query`: start the query and convert the raw response
via `_process_execution_response`. -/
def execute_query (output_loc : String) (stub : AthenaStub) : ExecutionResponse :=
  process_execution_response output_loc stub.startQueryId

/-- The dispatch `handler = getattr(self, status.lower(), None)` of
`Athena.execute_and_wait`, where the handler methods are `succeeded`
(returns `self.results(...)`, i.e. the paginator's result sets), `failed`
and `cancelled` (both log and raise carrying the execution id). -/
def dispatch_status (status : String) (execution_id : String)
    (pages : List ResultSet) : Except QueryError (List ResultSet) :=
  if status = "SUCCEEDED" then Except.ok pages
  else if status = "FAILED" then Except.error (QueryError.queryFailed execution_id)
  else if status = "CANCELLED" then Except.error (QueryError.queryCancelled execution_id)
  else Except.error (QueryError.noHandler status)

/-- Model of `Athena.execute_and_wait`: submit, poll until terminal (with `fuel`
polls available), then dispatch on the terminal status.  `none` means the
polling loop has not yet terminated. -/
def execute_and_wait (output_loc : String) (stub : AthenaStub) (fuel : Nat) :
    Option (Except QueryError (List ResultSet)) :=
  let execution_response := execute_query output_loc stub
  match wait_for_completion stub.statuses fuel 0 with
  | none => none
  | some status =>
    some (dispatch_status status execution_response.execution_id stub.resultPages)

/-! ## `Event` (main.py lines 367-398)

`Event._convert_to_datetime` calls
`datetime.strptime(timestamp, "%Y-%m-%dT%H:%M:%S%fZ")`.  We model CPython's
`strptime` for that literal format: each directive compiles to a regex
alternation (`%m` → `1[0-2]|0[1-9]|[1-9]`, `%f` → `[0-9]{1,6}` greedy,
etc., matched case-insensitively), tried in order with backtracking, and a
full match is then validated by the `datetime` constructor (which rejects
e.g. a day out of range for the month). -/

/-- The broken-down time produced by a successful `strptime` match, with
CPython's default values (1900-01-01 00:00:00). -/
structure ParsedTime where
  year : Nat := 1900
  month : Nat := 1
  day : Nat := 1
  hour : Nat := 0
  minute : Nat := 0
  second : Nat := 0
  frac : Nat := 0
deriving DecidableEq

/-- Format-directive tokens.  `%Y` is `year`, `%m` is `month`, `%d` is
`day`, `%H` is `hour`, `%M` is `minute`, `%S` is `second`, `%f` is `frac`;
everything else in a format string is a literal character. -/
inductive FTok where
  | lit (c : Char)
  | year
  | month
  | day
  | hour
  | minute
  | second
  | frac
deriving DecidableEq

/-- The tokenisation of the literal format string `"%Y-%m-%dT%H:%M:%S%fZ"`
passed to `strptime` in `Event._convert_to_datetime`.  Note the absence of
any token between `%S` and `%f`: the source's format string has no `"."`
before `"%f"`, although the docstring of `_convert_to_datetime` says the
input arrives in `"%Y-%m-%dT%H:%M:%S.%fZ"` format. -/
def fmtToks : List FTok :=
  [.year, .lit '-', .month, .lit '-', .day, .lit 'T', .hour, .lit ':',
   .minute, .lit ':', .second, .frac, .lit 'Z']

/-- The tokenisation of the format the docstring of
`_convert_to_datetime` documents (with the `"."` before the fractional
part). -/
def docstringFmtToks : List FTok :=
  [.year, .lit '-', .month, .lit '-', .day, .lit 'T', .hour, .lit ':',
   .minute, .lit ':', .second, .lit '.', .frac, .lit 'Z']

/-- Numeric value of a digit string. -/
def digitsToNat (ds : List Char) : Nat :=
  ds.foldl (fun acc c => acc * 10 + (c.toNat - '0'.toNat)) 0

/-- Consume exactly `len` leading characters as a digit group whose value
satisfies `ok`; return the value and the rest of the input. -/
def takeNum (len : Nat) (ok : Nat → Bool) (ds : List Char) :
    Option (Nat × List Char) :=
  let seg := ds.take len
  if seg.length = len ∧ seg.all Char.isDigit ∧ ok (digitsToNat seg) = true then
    some (digitsToNat seg, ds.drop len)
  else none

/-- The regex matcher `strptime` compiles for a token list: directives are
tried alternation-first (two-digit alternatives before one-digit, longest
fractional group first) with backtracking into the continuation; literal
characters match case-insensitively (`strptime` compiles its pattern with
`IGNORECASE`). -/
def matchToks : List FTok → List Char → ParsedTime → Option ParsedTime
  | [], [], acc => some acc
  | [], _ :: _, _ => none
  | .lit _ :: _, [], _ => none
  | .lit c :: ts, d :: ds, acc =>
    if d.toLower = c.toLower then matchToks ts ds acc else none
  | .year :: ts, ds, acc =>
    (match takeNum 4 (fun _ => true) ds with
     | some (v, rest) => matchToks ts rest { acc with year := v }
     | none => none)
  | .month :: ts, ds, acc =>
    (match takeNum 2 (fun v => 1 ≤ v && v ≤ 12) ds with
     | some (v, rest) => matchToks ts rest { acc with month := v }
     | none => none).orElse fun _ =>
    (match takeNum 1 (fun v => 1 ≤ v && v ≤ 9) ds with
     | some (v, rest) => matchToks ts rest { acc with month := v }
     | none => none)
  | .day :: ts, ds, acc =>
    (match takeNum 2 (fun v => 1 ≤ v && v ≤ 31) ds with
     | some (v, rest) => matchToks ts rest { acc with day := v }
     | none => none).orElse fun _ =>
    (match takeNum 1 (fun v => 1 ≤ v && v ≤ 9) ds with
     | some (v, rest) => matchToks ts rest { acc with day := v }
     | none => none)
  | .hour :: ts, ds, acc =>
    (match takeNum 2 (fun v => v ≤ 23) ds with
     | some (v, rest) => matchToks ts rest { acc with hour := v }
     | none => none).orElse fun _ =>
    (match takeNum 1 (fun v => v ≤ 9) ds with
     | some (v, rest) => matchToks ts rest { acc with hour := v }
     | none => none)
  | .minute :: ts, ds, acc =>
    (match takeNum 2 (fun v => v ≤ 59) ds with
     | some (v, rest) => matchToks ts rest { acc with minute := v }
     | none => none).orElse fun _ =>
    (match takeNum 1 (fun v => v ≤ 9) ds with
     | some (v, rest) => matchToks ts rest { acc with minute := v }
     | none => none)
  | .second :: ts, ds, acc =>
    (match takeNum 2 (fun v => v ≤ 61) ds with
     | some (v, rest) => matchToks ts rest { acc with second := v }
     | none => none).orElse fun _ =>
    (match takeNum 1 (fun v => v ≤ 9) ds with
     | some (v, rest) => matchToks ts rest { acc with second := v }
     | none => none)
  | .frac :: ts, ds, acc =>
    (match takeNum 6 (fun _ => true) ds with
     | some (v, rest) => matchToks ts rest { acc with frac := v }
     | none => none).orElse fun _ =>
    (match takeNum 5 (fun _ => true) ds with
     | some (v, rest) => matchToks ts rest { acc with frac := v }
     | none => none).orElse fun _ =>
    (match takeNum 4 (fun _ => true) ds with
     | some (v, rest) => matchToks ts rest { acc with frac := v }
     | none => none).orElse fun _ =>
    (match takeNum 3 (fun _ => true) ds with
     | some (v, rest) => matchToks ts rest { acc with frac := v }
     | none => none).orElse fun _ =>
    (match takeNum 2 (fun _ => true) ds with
     | some (v, rest) => matchToks ts rest { acc with frac := v }
     | none => none).orElse fun _ =>
    (match takeNum 1 (fun _ => true) ds with
     | some (v, rest) => matchToks ts rest { acc with frac := v }
     | none => none)

/-- Gregorian leap-year rule, as used by `datetime`. -/
def isLeapYear (y : Nat) : Bool :=
  y % 4 = 0 && (y % 100 ≠ 0 || y % 400 = 0)

/-- Days in a month, as validated by the `datetime` constructor. -/
def daysInMonth (y m : Nat) : Nat :=
  if m = 2 then (if isLeapYear y then 29 else 28)
  else if m = 4 ∨ m = 6 ∨ m = 9 ∨ m = 11 then 30
  else 31

/-- The range checks the `datetime` constructor performs on a value
`strptime` has matched (the directives already bound month ≤ 12,
hour ≤ 23 and minute ≤ 59, but `%S` admits 60/61, the day may exceed the
month's length, and year 0000 is below `MINYEAR`). -/
def validDatetime (t : ParsedTime) : Bool :=
  1 ≤ t.year && t.day ≤ daysInMonth t.year t.month && t.second ≤ 59

/-- Model of `Event._convert_to_datetime`: an empty (falsy) timestamp returns
`None`; otherwise `strptime(timestamp, "%Y-%m-%dT%H:%M:%S%fZ")`, whose
`ValueError` on a non-matching or calendar-invalid input becomes the
`Except.error`. -/
def convert_to_datetime (timestamp : String) : Except String (Option ParsedTime) :=
  if timestamp = "" then Except.ok none
  else
    match matchToks fmtToks timestamp.data {} with
    | some t =>
      if validDatetime t then Except.ok (some t)
      else Except.error "day is out of range for month"
    | none => Except.error "time data does not match format"

/-- The attribute state built by `Event.__init__`: the converted `time`
attribute plus the remaining attributes, with `"-"` replaced by `"_"` in
their names. -/
structure EventObj where
  time : Option ParsedTime := none
  attrs : List (String × String) := []
deriving DecidableEq

/-- The `for k, v in event.items():` loop of `Event.__init__`: the value
under a `"time"` key is passed through `_convert_to_datetime` (whose
`ValueError` propagates and aborts construction); every other item is
bound as an attribute under `k.replace("-", "_")`. -/
def eventInitLoop : List (String × String) → EventObj → Except String EventObj
  | [], obj => Except.ok obj
  | (k, v) :: rest, obj =>
    if k = "time" then
      match convert_to_datetime v with
      | Except.error e => Except.error e
      | Except.ok t => eventInitLoop rest { obj with time := t }
    else
      eventInitLoop rest { obj with attrs := obj.attrs ++ [(k.replace "-" "_", v)] }

/-- Model of `Event.__init__` on an event dict (an insertion-ordered association
list). -/
def Event_init (event : List (String × String)) : Except String EventObj :=
  eventInitLoop event {}

/-- Python's `str(n).zfill(2)` for the numerals used by the event properties. -/
def zfill2 (n : Nat) : String :=
  if n < 10 then "0" ++ toString n else toString n

/-- Model of `Event.event_year`: `str(self.time.year)`. -/
def event_year (t : ParsedTime) : String := toString t.year

/-- Model of `Event.event_month`: `str(self.time.month).zfill(2)`. -/
def event_month (t : ParsedTime) : String := zfill2 t.month

/-- Model of `Event.event_day`: `str(self.time.day).zfill(2)`. -/
def event_day (t : ParsedTime) : String := zfill2 t.day

/-! ## The partition index

Modelled from the spec: the partition-existence structure
(`PartitionIndex` in the spec; `TablePartitions._get_partitions` /
`check_for_partition` in the repository's tests) is not among the sources
under `src/` — only its tests remain.  Following §4.2 of the spec: `build`
skips the header row (the first row of the first page), parses each
remaining row's single text column by splitting on `/` and extracting the
value of each `key=value` segment, and inserts the ordered value tuple
into a nested mapping keyed by successive dimension values and terminating
in a list of last-dimension leaf values, creating intermediate levels on
demand; `contains` walks the nesting by successive key values, answering
false as soon as a level is missing. -/

/-- The nested existence structure: inner levels map a dimension value to
the next level; the last dimension is a flat list of leaf values. -/
inductive PTree where
  | leaf (vals : List String)
  | node (children : List (String × PTree))

/-- Look a dimension value up among a level's children. -/
def lookupChild : List (String × PTree) → String → Option PTree
  | [], _ => none
  | (k, c) :: rest, v => if k = v then some c else lookupChild rest v

/-- Replace the child stored under an existing dimension value. -/
def updateChild : List (String × PTree) → String → PTree → List (String × PTree)
  | [], _, _ => []
  | (k, c) :: rest, v, nc =>
    if k = v then (k, nc) :: rest else (k, c) :: updateChild rest v nc

/-- The empty index for a table of `d` dimensions: a bare leaf collection
when a single dimension remains, an empty mapping otherwise. -/
def emptyTree (d : Nat) : PTree :=
  if d ≤ 1 then PTree.leaf [] else PTree.node []

/-- Insert an ordered value tuple, creating intermediate levels on demand
(`traverse or create`).  A tuple whose arity does not fit the level shape
leaves the tree unchanged (this never happens for a well-formed scan). -/
def insertTuple : List String → PTree → PTree
  | [v], t =>
    (match t with
     | PTree.leaf vs => PTree.leaf (vs ++ [v])
     | PTree.node cs => PTree.node cs)
  | v :: r1 :: rs, t =>
    (match t with
     | PTree.node cs =>
       (match lookupChild cs v with
        | some child => PTree.node (updateChild cs v (insertTuple (r1 :: rs) child))
        | none =>
          PTree.node (cs ++ [(v, insertTuple (r1 :: rs) (emptyTree (r1 :: rs).length))]))
     | PTree.leaf vs => PTree.leaf vs)
  | [], t => t

/-- Walk the nesting by successive key values: false as soon as an
intermediate level is missing, membership in the leaf collection at the
last dimension. -/
def containsTuple : List String → PTree → Bool
  | [v], t =>
    (match t with
     | PTree.leaf vs => vs.contains v
     | PTree.node _ => false)
  | v :: r1 :: rs, t =>
    (match t with
     | PTree.node cs =>
       (match lookupChild cs v with
        | some child => containsTuple (r1 :: rs) child
        | none => false)
     | PTree.leaf _ => false)
  | [], _ => false

/-- Split a character list on a separator character (the path/`key=value`
separators of a scan row). -/
def splitOnChar (sep : Char) : List Char → List (List Char)
  | [] => [[]]
  | c :: cs =>
    if c = sep then [] :: splitOnChar sep cs
    else
      match splitOnChar sep cs with
      | s :: ss => (c :: s) :: ss
      | [] => [[c]]

/-- The value of a `key=value` segment (the part after the first `=`). -/
def kvValue (segment : String) : String :=
  match splitOnChar '=' segment.data with
  | _ :: v :: _ => String.mk v
  | _ => ""

/-- Parse one scan row's single text column
(`region=us-east-1/year=2020/...`) into its ordered value tuple. -/
def parseRow (row : String) : List String :=
  (splitOnChar '/' row.data).map fun seg => kvValue (String.mk seg)

/-- The scan rows to index: the first row of the first page is a header
and is skipped. -/
def scanRows : List (List String) → List String
  | [] => []
  | page :: pages => page.tail ++ pages.flatten

/-- Build the index for a `d`-dimension table from the scan's result
pages. -/
def buildIndex (d : Nat) (scan : List (List String)) : PTree :=
  (scanRows scan).foldl (fun t row => insertTuple (parseRow row) t) (emptyTree d)

/-- Well-formed index levels: a leaf at depth 1, a mapping of well-formed
sub-levels with distinct keys otherwise. -/
inductive WfTree : Nat → PTree → Prop
  | leaf (vs : List String) : WfTree 1 (PTree.leaf vs)
  | node (d : Nat) (cs : List (String × PTree))
      (hc : ∀ p ∈ cs, WfTree (d + 1) p.2)
      (hk : (cs.map Prod.fst).Nodup) : WfTree (d + 2) (PTree.node cs)

/-! ## `S3Helper` and `lambda_handler` (main.py lines 405-514) -/

/-- Model of `S3Helper._parse_lifeycle_rules_for_expiration` [sic]: the first rule
carrying an `Expiration.Days` value wins (as `int(...)`); rules without
one are skipped; no such rule yields `None`.  A rule is modelled by its
optional `Expiration.Days` field. -/
def parse_lifeycle_rules_for_expiration : List (Option Int) → Option Int
  | [] => none
  | some days :: _ => some days
  | none :: rest => parse_lifeycle_rules_for_expiration rest

/-- Days since 1970-01-01 of a proleptic Gregorian date (the exact date
arithmetic behind Python's `date - timedelta(days=n)`). -/
def daysFromCivil (y m d : Int) : Int :=
  let y2 := if m ≤ 2 then y - 1 else y
  let era := Int.fdiv y2 400
  let yoe := y2 - era * 400
  let mp := Int.emod (m + 9) 12
  let doy := Int.fdiv (153 * mp + 2) 5 + d - 1
  let doe := yoe * 365 + Int.fdiv yoe 4 - Int.fdiv yoe 100 + doy
  era * 146097 + doe - 719468

/-- Civil date from days since 1970-01-01 (inverse of `daysFromCivil`). -/
def civilFromDays (z0 : Int) : Int × Int × Int :=
  let z := z0 + 719468
  let era := Int.fdiv z 146097
  let doe := z - era * 146097
  let yoe := Int.fdiv
    (doe - Int.fdiv doe 1460 + Int.fdiv doe 36524 - Int.fdiv doe 146096) 365
  let y := yoe + era * 400
  let doy := doe - (365 * yoe + Int.fdiv yoe 4 - Int.fdiv yoe 100)
  let mp := Int.fdiv (5 * doy + 2) 153
  let d := doy - Int.fdiv (153 * mp + 2) 5 + 1
  let m := if mp < 10 then mp + 3 else mp - 9
  (if m ≤ 2 then y + 1 else y, m, d)

/-- Python's `event.time - timedelta(days=n)`: the date `n` days earlier. -/
def dateMinusDays (y m d : Int) (n : Int) : Int × Int × Int :=
  civilFromDays (daysFromCivil y m d - n)

/-- Python's `str(n).zfill(2)` for an integer. -/
def zfill2Int (n : Int) : String :=
  if (toString n).length < 2 then "0" ++ toString n else toString n

/-- The `new_partition` dict the handler builds for a region from the
event's date properties. -/
def newPartitionOf (ev : ParsedTime) (region : String) : List (String × String) :=
  [("region", region), ("year", event_year ev), ("month", event_month ev),
   ("day", event_day ev)]

/-- The `old_partition` dict: the event date minus the retention days,
with `str(_.year)`, `str(_.month).zfill(2)`, `str(_.day).zfill(2)`. -/
def oldPartitionOf (ev : ParsedTime) (days : Int) (region : String) :
    List (String × String) :=
  let ymd := dateMinusDays (Int.ofNat ev.year) (Int.ofNat ev.month)
    (Int.ofNat ev.day) days
  [("region", region), ("year", toString ymd.1), ("month", zfill2Int ymd.2.1),
   ("day", zfill2Int ymd.2.2)]

/-- The query string `TablePartition.add_partition` submits (the `"ADD"`
branch of the builder never raises, so the error default is dead). -/
def add_partition_query (table bucket_loc : String)
    (partition : List (String × String)) : String :=
  match build_partition_query table bucket_loc partition "ADD" with
  | Except.ok q => q
  | Except.error _ => ""

/-- The query string `TablePartition.drop_partition` submits. -/
def drop_partition_query (table bucket_loc : String)
    (partition : List (String × String)) : String :=
  match build_partition_query table bucket_loc partition "DROP" with
  | Except.ok q => q
  | Except.error _ => ""

/-- The `for region in helper.regions:` loop of `lambda_handler`, with the
Athena outcome of each submitted query given by `exec` (both
`add_partition` and `drop_partition` go through `execute_and_wait`, whose
raised exceptions propagate — there is no try/except in the loop).  The
gate `if helper.expiration_after_days:` is Python truthiness: `None` and
`0` are both falsy.  Besides the propagated outcome (`Except.ok true` is
the final `return True`), the trace of queries submitted to Athena is
returned. -/
def lambda_handler_loop (exec : String → Except QueryError (List ResultSet))
    (table bucket_loc : String) (ev : ParsedTime) (expiration : Option Int) :
    List String → Except QueryError Bool × List String
  | [] => (Except.ok true, [])
  | region :: rest =>
    let addq := add_partition_query table bucket_loc (newPartitionOf ev region)
    match exec addq with
    | Except.error e => (Except.error e, [addq])
    | Except.ok _ =>
      match expiration with
      | some days =>
        if days = 0 then
          let r := lambda_handler_loop exec table bucket_loc ev expiration rest
          (r.1, addq :: r.2)
        else
          let dropq := drop_partition_query table bucket_loc
            (oldPartitionOf ev days region)
          match exec dropq with
          | Except.error e => (Except.error e, [addq, dropq])
          | Except.ok _ =>
            let r := lambda_handler_loop exec table bucket_loc ev expiration rest
            (r.1, addq :: dropq :: r.2)
      | none =>
        let r := lambda_handler_loop exec table bucket_loc ev expiration rest
        (r.1, addq :: r.2)

/-- Model of `lambda_handler`: builds
`bucket_loc = f"{bucket}/AWSLogs/{account_id}/CloudTrail"` and runs the
per-region loop over the discovered regions with the configured
expiration. -/
def lambda_handler (exec : String → Except QueryError (List ResultSet))
    (bucket account_id table : String) (ev : ParsedTime)
    (regions : List String) (expiration : Option Int) :
    Except QueryError Bool × List String :=
  lambda_handler_loop exec table
    (bucket ++ "/AWSLogs/" ++ account_id ++ "/CloudTrail") ev expiration regions

/-- The stub Athena outcome for the C4 counterexample: the single ADD
query of the scenario succeeds, everything else (in particular the DROP
query) fails. -/
def c4exec : String → Except QueryError (List ResultSet) := fun q =>
  if q = add_partition_query "tbl" "ct/AWSLogs/123/CloudTrail"
      (newPartitionOf ⟨2020, 9, 15, 10, 0, 0, 0⟩ "us-east-1") then
    Except.ok []
  else
    Except.error (QueryError.queryFailed "drop-failed")

/-- String append is associative (used throughout to normalise the
concatenations produced by the query-builder loop). -/
theorem str_append_assoc : ∀ a b c : String, (a ++ b) ++ c = a ++ (b ++ c)
  | ⟨a⟩, ⟨b⟩, ⟨c⟩ => congrArg String.mk (List.append_assoc a b c)

/-- The query-builder loop computes exactly the comma-separated PARTITION
clause and the slash-terminated location path, appended to the incoming
accumulators. -/
theorem queryLoop_eq (p : List (String × String)) :
    ∀ (i : Nat) (pstr loc : String),
      queryLoop (i + p.length - 1) i p (pstr, loc) =
        (pstr ++ partitionClauseSpec p, loc ++ locationValuesSpec p) := by
  induction p with
  | nil =>
    intro i pstr loc
    simp [queryLoop, partitionClauseSpec, locationValuesSpec]
  | cons kv rest ih =>
    intro i pstr loc
    match rest with
    | [] =>
      simp [queryLoop, partitionClauseSpec, locationValuesSpec, str_append_assoc]
    | kv2 :: rest2 =>
      have hne : i ≠ i + (kv :: kv2 :: rest2).length - 1 := by
        simp only [List.length_cons]; omega
      have harg : i + (kv :: kv2 :: rest2).length - 1
          = (i + 1) + (kv2 :: rest2).length - 1 := by
        simp only [List.length_cons]; omega
      rw [queryLoop, if_neg hne, harg, ih (i + 1)]
      simp [partitionClauseSpec, locationValuesSpec, str_append_assoc]

/-- Characterisation of `_build_partition_query` for `ADD`: the exact query
string, with the spec-side clause and location-path renderings. -/
theorem build_add_eq (table loc : String) (p : List (String × String)) :
    build_partition_query table loc p "ADD" =
      Except.ok ("ALTER TABLE " ++ table ++ " ADD IF NOT EXISTS PARTITION ("
        ++ partitionClauseSpec p ++ ") LOCATION '" ++ ("s3://" ++ loc ++ "/")
        ++ locationValuesSpec p ++ "'") := by
  have h := queryLoop_eq p 0 "" ("s3://" ++ loc ++ "/")
  rw [Nat.zero_add] at h
  simp only [str_append_assoc, String.empty_append] at h
  simp [build_partition_query, h, str_append_assoc]

/-- Characterisation of `_build_partition_query` for `DROP`: the exact query
string; no `LOCATION` clause is appended. -/
theorem build_drop_eq (table loc : String) (p : List (String × String)) :
    build_partition_query table loc p "DROP" =
      Except.ok ("ALTER TABLE " ++ table ++ " DROP IF EXISTS PARTITION ("
        ++ partitionClauseSpec p ++ ")") := by
  have h := queryLoop_eq p 0 "" ("s3://" ++ loc ++ "/")
  rw [Nat.zero_add] at h
  simp only [str_append_assoc, String.empty_append] at h
  simp [build_partition_query, h, str_append_assoc]

/-- C2: for every non-empty partition key, `_build_partition_query` with
action `ADD` produces `ALTER TABLE <table> ADD IF NOT EXISTS PARTITION
(k1='v1',...,kn='vn')` with the pairs in key order, followed by a `LOCATION`
clause whose path is the base location (`s3://<bucket_loc>/`) followed by
the key's values in key order, each followed by a `/` separator. -/
theorem claim_C2_add_query (table loc : String) (p : List (String × String))
    (_hp : p ≠ []) :
    build_partition_query table loc p "ADD" =
      Except.ok ("ALTER TABLE " ++ table ++ " ADD IF NOT EXISTS PARTITION ("
        ++ partitionClauseSpec p ++ ") LOCATION '" ++ ("s3://" ++ loc ++ "/")
        ++ locationValuesSpec p ++ "'") :=
  build_add_eq table loc p

/-- Witness for C2 at the concrete key of `test_query_builder`. -/
theorem claim_C2_add_query_witness :
    ([("region", "us-west-2"), ("year", "2020"), ("month", "03"), ("day", "01")]
        : List (String × String)) ≠ [] ∧
    build_partition_query "foo" "foo/bar"
        [("region", "us-west-2"), ("year", "2020"), ("month", "03"), ("day", "01")] "ADD" =
      Except.ok ("ALTER TABLE " ++ "foo" ++ " ADD IF NOT EXISTS PARTITION ("
        ++ partitionClauseSpec
            [("region", "us-west-2"), ("year", "2020"), ("month", "03"), ("day", "01")]
        ++ ") LOCATION '" ++ ("s3://" ++ "foo/bar" ++ "/")
        ++ locationValuesSpec
            [("region", "us-west-2"), ("year", "2020"), ("month", "03"), ("day", "01")]
        ++ "'") :=
  ⟨by decide, claim_C2_add_query "foo" "foo/bar" _ (by decide)⟩

/-- C6: for every partition key and base location, the `DROP` query is
exactly `ALTER TABLE <table> DROP IF EXISTS PARTITION (<pairs>)` — no
`LOCATION` clause is ever appended — and the `ADD` query always uses
`IF NOT EXISTS` while the `DROP` query always uses `IF EXISTS`. -/
theorem claim_C6_drop_no_location_idempotent (table loc : String)
    (p : List (String × String)) :
    build_partition_query table loc p "DROP" =
      Except.ok ("ALTER TABLE " ++ table ++ " DROP IF EXISTS PARTITION ("
        ++ partitionClauseSpec p ++ ")")
    ∧ build_partition_query table loc p "ADD" =
      Except.ok ("ALTER TABLE " ++ table ++ " ADD IF NOT EXISTS PARTITION ("
        ++ partitionClauseSpec p ++ ") LOCATION '" ++ ("s3://" ++ loc ++ "/")
        ++ locationValuesSpec p ++ "'") :=
  ⟨build_drop_eq table loc p, build_add_eq table loc p⟩

/-- C7: for every action string other than `ADD` and `DROP`, building a
partition query fails with the invalid-action error (no query string is
produced), while for `ADD` and `DROP` it always returns a query string. -/
theorem claim_C7_invalid_action (table loc : String) (p : List (String × String))
    (a : String) (h : a ≠ "ADD" ∧ a ≠ "DROP") :
    build_partition_query table loc p a = Except.error "action_string must be ADD or DROP"
    ∧ (∃ q, build_partition_query table loc p "ADD" = Except.ok q)
    ∧ (∃ q, build_partition_query table loc p "DROP" = Except.ok q) := by
  refine ⟨?_, ⟨_, build_add_eq table loc p⟩, ⟨_, build_drop_eq table loc p⟩⟩
  simp [build_partition_query, h.1, h.2]

/-- Witness for C7 at the concrete action string `MERGE`. -/
theorem claim_C7_invalid_action_witness :
    (("MERGE" : String) ≠ "ADD" ∧ ("MERGE" : String) ≠ "DROP")
    ∧ build_partition_query "t" "b" [("region", "us-east-1")] "MERGE" =
        Except.error "action_string must be ADD or DROP" :=
  ⟨⟨by decide, by decide⟩,
   (claim_C7_invalid_action "t" "b" [("region", "us-east-1")] "MERGE"
     ⟨by decide, by decide⟩).1⟩

/-- Any status returned by the polling loop is terminal and was reported by
the status service. -/
theorem wait_sound (statuses : Nat → String) :
    ∀ (fuel i : Nat) (st : String), wait_for_completion statuses fuel i = some st →
      st ∈ terminalStatuses ∧ ∃ k, st = statuses k := by
  intro fuel
  induction fuel with
  | zero => intro i st h; simp [wait_for_completion] at h
  | succ fuel ih =>
    intro i st h
    rw [wait_for_completion] at h
    by_cases hc : statuses i ∈ terminalStatuses
    · rw [if_pos hc] at h
      cases h
      exact ⟨hc, i, rfl⟩
    · rw [if_neg hc] at h
      exact ih (i + 1) st h

/-- If some poll reports a terminal status, the loop terminates with enough
fuel. -/
theorem wait_terminates (statuses : Nat → String) :
    ∀ (n i : Nat), statuses (i + n) ∈ terminalStatuses →
      ∃ st, wait_for_completion statuses (n + 1) i = some st := by
  intro n
  induction n with
  | zero =>
    intro i h
    exact ⟨statuses i, by rw [wait_for_completion, if_pos (by simpa using h)]⟩
  | succ n ih =>
    intro i h
    rw [wait_for_completion]
    by_cases hc : statuses i ∈ terminalStatuses
    · exact ⟨statuses i, by rw [if_pos hc]⟩
    · rw [if_neg hc]
      exact ih (i + 1) (by rw [show i + 1 + n = i + (n + 1) from by omega]; exact h)

/-- If the service never reports a terminal status, the loop never
terminates (it returns `none` for every amount of fuel). -/
theorem wait_no_terminal (f : Nat → String) (hf : ∀ k, f k ∉ terminalStatuses) :
    ∀ fuel i, wait_for_completion f fuel i = none := by
  intro fuel
  induction fuel with
  | zero => intro i; rfl
  | succ fuel ih => intro i; rw [wait_for_completion, if_neg (hf i)]; exact ih (i + 1)

/-- C9: `wait_for_completion` polls at a fixed 250&nbsp;ms interval; for every
execution whose status service eventually reports a status in
{SUCCEEDED, FAILED, CANCELLED} the loop terminates (some fuel suffices) and
returns a status that is terminal and was reported by the service; and for
a service that never reports a terminal status the loop never terminates,
whatever the fuel. -/
theorem claim_C9_wait_for_completion (statuses : Nat → String) (n : Nat)
    (hterm : statuses n ∈ terminalStatuses) :
    pollIntervalMs = 250
    ∧ (∃ fuel st, wait_for_completion statuses fuel 0 = some st
        ∧ st ∈ terminalStatuses ∧ ∃ k, st = statuses k)
    ∧ (∀ f : Nat → String, (∀ k, f k ∉ terminalStatuses) →
        ∀ fuel, wait_for_completion f fuel 0 = none) := by
  refine ⟨rfl, ?_, fun f hf fuel => wait_no_terminal f hf fuel 0⟩
  obtain ⟨st, hw⟩ := wait_terminates statuses n 0 (by simpa using hterm)
  obtain ⟨hmem, hk⟩ := wait_sound statuses (n + 1) 0 st hw
  exact ⟨n + 1, st, hw, hmem, hk⟩

/-- Witness for C9: a service that reports RUNNING twice and then
SUCCEEDED. -/
theorem claim_C9_wait_for_completion_witness :
    ((fun k => if k < 2 then "RUNNING" else "SUCCEEDED") 2 ∈ terminalStatuses)
    ∧ (∃ fuel st,
        wait_for_completion (fun k => if k < 2 then "RUNNING" else "SUCCEEDED") fuel 0 = some st
        ∧ st ∈ terminalStatuses
        ∧ ∃ k, st = (fun k => if k < 2 then "RUNNING" else "SUCCEEDED") k) :=
  ⟨by decide,
   (claim_C9_wait_for_completion (fun k => if k < 2 then "RUNNING" else "SUCCEEDED") 2
     (by decide)).2.1⟩

/-- C1: whenever `execute_and_wait` reaches a terminal status, it
dispatches by that status: SUCCEEDED returns the fetched result pages,
FAILED raises the query-failed error carrying the execution id, CANCELLED
raises the query-cancelled error carrying the execution id — and these
three statuses are the only ones a completed poll can deliver. -/
theorem claim_C1_execute_and_wait_dispatch (output_loc : String) (stub : AthenaStub)
    (fuel : Nat) (r : Except QueryError (List ResultSet))
    (h : execute_and_wait output_loc stub fuel = some r) :
    (wait_for_completion stub.statuses fuel 0 = some "SUCCEEDED"
      ∧ r = Except.ok stub.resultPages)
    ∨ (wait_for_completion stub.statuses fuel 0 = some "FAILED"
      ∧ r = Except.error
          (QueryError.queryFailed (execute_query output_loc stub).execution_id))
    ∨ (wait_for_completion stub.statuses fuel 0 = some "CANCELLED"
      ∧ r = Except.error
          (QueryError.queryCancelled (execute_query output_loc stub).execution_id)) := by
  unfold execute_and_wait at h
  revert h
  cases hw : wait_for_completion stub.statuses fuel 0 with
  | none => intro h; simp at h
  | some st =>
    intro h
    simp only [Option.some.injEq] at h
    obtain ⟨hmem, -⟩ := wait_sound stub.statuses fuel 0 st hw
    simp only [terminalStatuses, List.mem_cons, List.mem_singleton,
      List.not_mem_nil, or_false] at hmem
    rcases hmem with h1 | h1 | h1 <;> subst h1
    · exact Or.inl ⟨rfl, by simp [dispatch_status] at h; exact h.symm⟩
    · exact Or.inr (Or.inl ⟨rfl, by simp [dispatch_status] at h; exact h.symm⟩)
    · exact Or.inr (Or.inr ⟨rfl, by simp [dispatch_status] at h; exact h.symm⟩)

/-- Witness for C1: a stub whose first poll reports FAILED; the result is
the query-failed error carrying the stub's execution id. -/
theorem claim_C1_execute_and_wait_dispatch_witness :
    (execute_and_wait "s3://out/" ⟨some "abc123", fun _ => "FAILED", []⟩ 1
        = some (Except.error (QueryError.queryFailed "abc123")))
    ∧ ((wait_for_completion (fun _ => "FAILED") 1 0 = some "SUCCEEDED"
        ∧ (Except.error (QueryError.queryFailed "abc123")
            : Except QueryError (List ResultSet)) = Except.ok [])
      ∨ (wait_for_completion (fun _ => "FAILED") 1 0 = some "FAILED"
        ∧ (Except.error (QueryError.queryFailed "abc123")
            : Except QueryError (List ResultSet)) = Except.error
            (QueryError.queryFailed
              (execute_query "s3://out/" ⟨some "abc123", fun _ => "FAILED", []⟩).execution_id))
      ∨ (wait_for_completion (fun _ => "FAILED") 1 0 = some "CANCELLED"
        ∧ (Except.error (QueryError.queryFailed "abc123")
            : Except QueryError (List ResultSet)) = Except.error
            (QueryError.queryCancelled
              (execute_query "s3://out/" ⟨some "abc123", fun _ => "FAILED", []⟩).execution_id))) :=
  ⟨rfl,
   claim_C1_execute_and_wait_dispatch "s3://out/" ⟨some "abc123", fun _ => "FAILED", []⟩ 1
     (Except.error (QueryError.queryFailed "abc123")) rfl⟩

/-- C5 (code defect): building an `Event` from the timer event
`{time: "2020-09-15T10:00:00.000Z"}` does not yield year "2020", month
"09", day "15" — the format string `"%Y-%m-%dT%H:%M:%S%fZ"` in
`_convert_to_datetime` is missing the `"."` of the docstring's
`"%Y-%m-%dT%H:%M:%S.%fZ"`, so the fractional timestamp cannot match and
construction raises `ValueError`.  Under the format the docstring
documents, the same timestamp parses and the event properties yield
exactly the claimed 4-digit year and 2-digit zero-padded month and day. -/
theorem claim_C5_timer_event_key_derivation :
    Event_init [("time", "2020-09-15T10:00:00.000Z")]
      = Except.error "time data does not match format"
    ∧ matchToks docstringFmtToks "2020-09-15T10:00:00.000Z".data {}
        = some ⟨2020, 9, 15, 10, 0, 0, 0⟩
    ∧ event_year ⟨2020, 9, 15, 10, 0, 0, 0⟩ = "2020"
    ∧ event_month ⟨2020, 9, 15, 10, 0, 0, 0⟩ = "09"
    ∧ event_day ⟨2020, 9, 15, 10, 0, 0, 0⟩ = "15" :=
  ⟨rfl, by decide, by decide, by decide, by decide⟩

/-- Construction of an `Event` propagates a `_convert_to_datetime` failure past
any number of preceding non-"time" attributes. -/
theorem eventInitLoop_time_error (ts : String) (post : List (String × String))
    (e : String) (hconv : convert_to_datetime ts = Except.error e) :
    ∀ (pre : List (String × String)) (obj : EventObj),
      (∀ kv ∈ pre, kv.1 ≠ "time") →
      eventInitLoop (pre ++ ("time", ts) :: post) obj = Except.error e := by
  intro pre
  induction pre with
  | nil =>
    intro obj _
    simp [eventInitLoop, hconv]
  | cons kv pre ih =>
    intro obj hpre
    have hk : kv.1 ≠ "time" := hpre kv (List.mem_cons_self kv pre)
    obtain ⟨k, v⟩ := kv
    simp only [List.cons_append, eventInitLoop, if_neg hk]
    exact ih _ fun kv2 hkv2 => hpre kv2 (List.mem_cons_of_mem _ hkv2)

/-- C8: for every timer-shaped event whose time field is a non-empty
timestamp that `strptime` with the source's format cannot turn into a
valid datetime, event construction fails with a parse error (the raised
`ValueError`; the spec's name for it is `EventParseError`), whatever other
attributes the event carries. -/
theorem claim_C8_unparsable_time_fails (pre post : List (String × String))
    (ts : String) (hpre : ∀ kv ∈ pre, kv.1 ≠ "time") (hts : ts ≠ "")
    (hbad : ∀ t, matchToks fmtToks ts.data {} = some t → validDatetime t = false) :
    ∃ e, Event_init (pre ++ ("time", ts) :: post) = Except.error e := by
  have hconv : ∃ e, convert_to_datetime ts = Except.error e := by
    unfold convert_to_datetime
    rw [if_neg hts]
    cases hm : matchToks fmtToks ts.data {} with
    | none => exact ⟨_, rfl⟩
    | some t =>
      refine ⟨"day is out of range for month", ?_⟩
      simp [hbad t hm]
  obtain ⟨e, he⟩ := hconv
  exact ⟨e, eventInitLoop_time_error ts post e he pre {} hpre⟩

/-- Witness for C8 at the concrete unparsable timestamp `"garbage"`. -/
theorem claim_C8_unparsable_time_fails_witness :
    (∀ kv ∈ ([] : List (String × String)), kv.1 ≠ "time")
    ∧ ("garbage" : String) ≠ ""
    ∧ (∃ e, Event_init [("time", "garbage")] = Except.error e) :=
  ⟨fun kv h => absurd h (List.not_mem_nil kv), by decide,
   claim_C8_unparsable_time_fails [] [] "garbage"
     (fun kv h => absurd h (List.not_mem_nil kv)) (by decide)
     (fun t h => by
       rw [show matchToks fmtToks "garbage".data {} = none from by decide] at h
       cases h)⟩

/-- A successful lookup returns a stored child. -/
theorem lookupChild_mem : ∀ (cs : List (String × PTree)) (v : String) (c : PTree),
    lookupChild cs v = some c → (v, c) ∈ cs := by
  intro cs
  induction cs with
  | nil => intro v c h; simp [lookupChild] at h
  | cons kc rest ih =>
    intro v c h
    obtain ⟨k, c0⟩ := kc
    by_cases hk : k = v
    · subst hk
      rw [lookupChild, if_pos rfl] at h
      cases h
      exact List.mem_cons_self _ _
    · rw [lookupChild, if_neg hk] at h
      exact List.mem_cons_of_mem _ (ih v c h)

/-- A failed lookup means the key is absent. -/
theorem lookupChild_eq_none : ∀ (cs : List (String × PTree)) (v : String),
    lookupChild cs v = none ↔ v ∉ cs.map Prod.fst := by
  intro cs
  induction cs with
  | nil => intro v; simp [lookupChild]
  | cons kc rest ih =>
    intro v
    obtain ⟨k, c0⟩ := kc
    by_cases hk : k = v
    · subst hk
      rw [lookupChild, if_pos rfl]
      simp
    · rw [lookupChild, if_neg hk]
      have hvk : v ≠ k := fun h => hk h.symm
      simp [ih, hvk]

/-- Updating a key leaves the key list unchanged. -/
theorem updateChild_map_fst : ∀ (cs : List (String × PTree)) (v : String) (nc : PTree),
    (updateChild cs v nc).map Prod.fst = cs.map Prod.fst := by
  intro cs
  induction cs with
  | nil => intro v nc; rfl
  | cons kc rest ih =>
    intro v nc
    obtain ⟨k, c0⟩ := kc
    by_cases hk : k = v
    · rw [updateChild, if_pos hk]; simp
    · rw [updateChild, if_neg hk]
      simp [ih]

/-- Every entry of an updated child list is the new child or an original
entry. -/
theorem mem_updateChild : ∀ (cs : List (String × PTree)) (v : String) (nc : PTree)
    (p : String × PTree), p ∈ updateChild cs v nc → p.2 = nc ∨ p ∈ cs := by
  intro cs
  induction cs with
  | nil => intro v nc p h; simp [updateChild] at h
  | cons kc rest ih =>
    intro v nc p h
    obtain ⟨k, c0⟩ := kc
    by_cases hk : k = v
    · rw [updateChild, if_pos hk] at h
      rcases List.mem_cons.mp h with h1 | h1
      · exact Or.inl (by rw [h1])
      · exact Or.inr (List.mem_cons_of_mem _ h1)
    · rw [updateChild, if_neg hk] at h
      rcases List.mem_cons.mp h with h1 | h1
      · exact Or.inr (by rw [h1]; exact List.mem_cons_self _ _)
      · rcases ih v nc p h1 with h2 | h2
        · exact Or.inl h2
        · exact Or.inr (List.mem_cons_of_mem _ h2)

/-- Looking up the updated key finds the new child (when the key was
present). -/
theorem lookupChild_updateChild_self : ∀ (cs : List (String × PTree)) (v : String)
    (nc c : PTree), lookupChild cs v = some c →
    lookupChild (updateChild cs v nc) v = some nc := by
  intro cs
  induction cs with
  | nil => intro v nc c h; simp [lookupChild] at h
  | cons kc rest ih =>
    intro v nc c h
    obtain ⟨k, c0⟩ := kc
    by_cases hk : k = v
    · rw [updateChild, if_pos hk, lookupChild, if_pos hk]
    · rw [lookupChild, if_neg hk] at h
      rw [updateChild, if_neg hk, lookupChild, if_neg hk]
      exact ih v nc c h

/-- Looking up any other key is unaffected by an update. -/
theorem lookupChild_updateChild_other : ∀ (cs : List (String × PTree)) (v w : String)
    (nc : PTree), w ≠ v → lookupChild (updateChild cs v nc) w = lookupChild cs w := by
  intro cs
  induction cs with
  | nil => intro v w nc _; rfl
  | cons kc rest ih =>
    intro v w nc hwv
    obtain ⟨k, c0⟩ := kc
    by_cases hk : k = v
    · subst hk
      have hne : k ≠ w := fun h => hwv h.symm
      rw [updateChild, if_pos rfl, lookupChild, if_neg hne, lookupChild, if_neg hne]
    · rw [updateChild, if_neg hk]
      rw [lookupChild, lookupChild]
      by_cases hkw : k = w
      · rw [if_pos hkw, if_pos hkw]
      · rw [if_neg hkw, if_neg hkw]
        exact ih v w nc hwv

/-- Appending a fresh key: the lookup falls through to the new entry. -/
theorem lookupChild_append : ∀ (cs : List (String × PTree)) (v : String) (c : PTree)
    (w : String),
    lookupChild (cs ++ [(v, c)]) w =
      (match lookupChild cs w with
       | some x => some x
       | none => if w = v then some c else none) := by
  intro cs
  induction cs with
  | nil =>
    intro v c w
    show (if v = w then some c else none) = if w = v then some c else none
    by_cases h : v = w
    · rw [if_pos h, if_pos h.symm]
    · rw [if_neg h, if_neg fun h2 => h h2.symm]
  | cons kc rest ih =>
    intro v c w
    obtain ⟨k, c0⟩ := kc
    by_cases hk : k = w
    · show (if k = w then _ else _) = _
      rw [if_pos hk]
      conv_rhs => rw [lookupChild, if_pos hk]
    · show (if k = w then _ else _) = _
      rw [if_neg hk]
      conv_rhs => rw [lookupChild, if_neg hk]
      exact ih v c w

/-- The empty index is well-formed at its arity. -/
theorem wf_emptyTree : ∀ (d : Nat), 1 ≤ d → WfTree d (emptyTree d)
  | 1, _ => WfTree.leaf []
  | (e + 2), _ => by
    rw [emptyTree, if_neg (by omega)]
    exact WfTree.node e [] (by intro p hp; simp at hp) (by simp)

/-- Nothing is contained in the empty index. -/
theorem contains_emptyTree (d : Nat) (K : List String) :
    containsTuple K (emptyTree d) = false := by
  unfold emptyTree
  by_cases h : d ≤ 1
  · rw [if_pos h]
    match K with
    | [] => rfl
    | [v] => rfl
    | v :: w :: rest => rfl
  · rw [if_neg h]
    match K with
    | [] => rfl
    | [v] => rfl
    | v :: w :: rest => rfl

/-- Insertion of a tuple of the right arity preserves well-formedness. -/
theorem wf_insertTuple : ∀ (tup : List String) (d : Nat) (t : PTree),
    WfTree d t → tup.length = d → WfTree d (insertTuple tup t) := by
  intro tup
  induction tup with
  | nil =>
    intro d t hw hl
    cases hw <;> simp at hl
  | cons v rest ih =>
    intro d t hw hl
    cases hw with
    | leaf vs =>
      have hr : rest = [] := by
        cases rest with
        | nil => rfl
        | cons a b => simp at hl
      subst hr
      exact WfTree.leaf (vs ++ [v])
    | node e cs hc hk =>
      obtain ⟨r1, rest', rfl⟩ : ∃ r1 rest', rest = r1 :: rest' := by
        cases rest with
        | nil => simp at hl
        | cons a b => exact ⟨a, b, rfl⟩
      have hlen : (r1 :: rest').length = e + 1 := by
        simp only [List.length_cons] at hl ⊢; omega
      simp only [insertTuple]
      cases hlk : lookupChild cs v with
      | some child =>
        have hchild : WfTree (e + 1) child :=
          hc (v, child) (lookupChild_mem cs v child hlk)
        refine WfTree.node e _ ?_ ?_
        · intro p hp
          rcases mem_updateChild cs v _ p hp with h1 | h1
          · rw [h1]; exact ih (e + 1) child hchild hlen
          · exact hc p h1
        · rw [updateChild_map_fst]; exact hk
      | none =>
        have hwnew : WfTree (e + 1)
            (insertTuple (r1 :: rest') (emptyTree (r1 :: rest').length)) := by
          rw [hlen]
          exact ih (e + 1) (emptyTree (e + 1)) (wf_emptyTree _ (by omega)) hlen
        refine WfTree.node e _ ?_ ?_
        · intro p hp
          rcases List.mem_append.mp hp with h1 | h1
          · exact hc p h1
          · have h2 : p = (v, insertTuple (r1 :: rest') (emptyTree (r1 :: rest').length)) := by
              simpa using h1
            rw [h2]; exact hwnew
        · have hv : v ∉ cs.map Prod.fst := (lookupChild_eq_none cs v).mp hlk
          simp [List.nodup_append, hk, hv]

/-- The effect of inserting one tuple on membership: exactly that tuple
becomes additionally contained. -/
theorem contains_insertTuple : ∀ (tup K : List String) (d : Nat) (t : PTree),
    WfTree d t → tup.length = d → K.length = d →
    (containsTuple K (insertTuple tup t) = true ↔
      containsTuple K t = true ∨ K = tup) := by
  intro tup
  induction tup with
  | nil => intro K d t hw hl hK; cases hw <;> simp at hl
  | cons v rest ih =>
    intro K d t hw hl hK
    cases hw with
    | leaf vs =>
      have hr : rest = [] := by
        cases rest with
        | nil => rfl
        | cons a b => simp at hl
      subst hr
      obtain ⟨w, rfl⟩ : ∃ w, K = [w] := List.length_eq_one.mp hK
      simp only [insertTuple, containsTuple]
      simp [List.contains, List.elem_eq_mem, List.mem_append]
    | node e cs hc hk =>
      obtain ⟨r1, rest', rfl⟩ : ∃ r1 rest', rest = r1 :: rest' := by
        cases rest with
        | nil => simp at hl
        | cons a b => exact ⟨a, b, rfl⟩
      have hlen : (r1 :: rest').length = e + 1 := by
        simp only [List.length_cons] at hl ⊢; omega
      obtain ⟨w, K1, rfl⟩ : ∃ w K1, K = w :: K1 := by
        cases K with
        | nil => simp at hK
        | cons a b => exact ⟨a, b, rfl⟩
      obtain ⟨k1, ks, rfl⟩ : ∃ k1 ks, K1 = k1 :: ks := by
        cases K1 with
        | nil => simp at hK
        | cons a b => exact ⟨a, b, rfl⟩
      have hKlen : (k1 :: ks).length = e + 1 := by
        simp only [List.length_cons] at hK ⊢; omega
      simp only [insertTuple]
      cases hlk : lookupChild cs v with
      | some child =>
        have hchild : WfTree (e + 1) child :=
          hc (v, child) (lookupChild_mem cs v child hlk)
        by_cases hwv : w = v
        · subst hwv
          simp only [containsTuple]
          rw [lookupChild_updateChild_self cs w _ child hlk, hlk]
          rw [ih (k1 :: ks) (e + 1) child hchild hlen hKlen]
          simp
        · simp only [containsTuple]
          rw [lookupChild_updateChild_other cs v w _ hwv]
          simp [hwv]
      | none =>
        by_cases hwv : w = v
        · subst hwv
          simp only [containsTuple]
          rw [lookupChild_append, hlk]
          simp only [eq_self_iff_true, if_true]
          rw [ih (k1 :: ks) (r1 :: rest').length (emptyTree (r1 :: rest').length)
            (wf_emptyTree _ (by simp)) rfl (by rw [hKlen, hlen])]
          rw [contains_emptyTree]
          simp
        · simp only [containsTuple]
          rw [lookupChild_append]
          cases hcw : lookupChild cs w with
          | some x => simp [hwv]
          | none => simp [hwv]

/-- Folding same-arity tuples into a well-formed tree: membership is the
original membership extended by exactly the inserted tuples. -/
theorem contains_foldl : ∀ (rows : List (List String)) (t : PTree) (d : Nat)
    (K : List String), WfTree d t → (∀ r ∈ rows, r.length = d) → K.length = d →
    (containsTuple K (rows.foldl (fun acc r => insertTuple r acc) t) = true
      ↔ containsTuple K t = true ∨ K ∈ rows) := by
  intro rows
  induction rows with
  | nil => intro t d K _ _ _; simp
  | cons r rows ih =>
    intro t d K hw hr hK
    simp only [List.foldl_cons]
    rw [ih (insertTuple r t) d K
      (wf_insertTuple r d t hw (hr r (List.mem_cons_self r rows)))
      (fun x hx => hr x (List.mem_cons_of_mem r hx)) hK]
    rw [contains_insertTuple r K d t hw (hr r (List.mem_cons_self r rows)) hK]
    simp only [List.mem_cons]
    tauto

/-- C3 (spec-modelled: the partition index exists only in the repository's
tests, so it is modelled from §4.2 of the spec): building the index from a
scan and querying `contains(K)` answers true iff K's value tuple appears
verbatim (order-sensitive) among the scan's parsed rows after the header
row of the first page is skipped; and a scan containing only the header
row yields an index in which `contains` is false for every key. -/
theorem claim_C3_partition_index_contains (d : Nat) (scan : List (List String))
    (K : List String) (hd : 1 ≤ d) (hK : K.length = d)
    (hrows : ∀ row ∈ scanRows scan, (parseRow row).length = d) :
    (containsTuple K (buildIndex d scan) = true
      ↔ K ∈ (scanRows scan).map parseRow)
    ∧ (∀ (header : String) (K2 : List String),
        containsTuple K2 (buildIndex d [[header]]) = false) := by
  constructor
  · have hfold : buildIndex d scan
        = ((scanRows scan).map parseRow).foldl (fun acc r => insertTuple r acc)
            (emptyTree d) :=
      (List.foldl_map parseRow (fun acc r => insertTuple r acc) (scanRows scan)
        (emptyTree d)).symm
    rw [hfold, contains_foldl ((scanRows scan).map parseRow) (emptyTree d) d K
      (wf_emptyTree d hd)
      (fun r hr => by
        obtain ⟨row, hrow, rfl⟩ := List.mem_map.mp hr
        exact hrows row hrow) hK]
    rw [contains_emptyTree]
    simp
  · intro header K2
    simpa [buildIndex, scanRows] using contains_emptyTree d K2

/-- Witness for C3: the end-to-end scenario of §8 of the spec — a scan
holding one header row and one partition row. -/
theorem claim_C3_partition_index_contains_witness :
    (1 ≤ 4 ∧ (["us-east-1", "2020", "03", "30"] : List String).length = 4
      ∧ ∀ row ∈ scanRows [["partition",
            "region=us-east-1/year=2020/month=03/day=30"]],
          (parseRow row).length = 4)
    ∧ (containsTuple ["us-east-1", "2020", "03", "30"]
        (buildIndex 4 [["partition",
            "region=us-east-1/year=2020/month=03/day=30"]]) = true
      ↔ ["us-east-1", "2020", "03", "30"]
          ∈ (scanRows [["partition",
              "region=us-east-1/year=2020/month=03/day=30"]]).map parseRow) :=
  ⟨⟨by decide, by decide, by decide⟩,
   (claim_C3_partition_index_contains 4
     [["partition", "region=us-east-1/year=2020/month=03/day=30"]]
     ["us-east-1", "2020", "03", "30"] (by decide) (by decide) (by decide)).1⟩

/-- Success characterisation of the handler loop: it yields the final
`return True` exactly when every region's ADD succeeds and, when a
truthy (non-`None`, non-zero) retention is configured, every region's
DROP succeeds as well. -/
theorem lambda_handler_loop_ok_iff
    (exec : String → Except QueryError (List ResultSet))
    (table bucket_loc : String) (ev : ParsedTime) (expiration : Option Int) :
    ∀ regions : List String,
      ((lambda_handler_loop exec table bucket_loc ev expiration regions).1
          = Except.ok true
        ↔ ∀ region ∈ regions,
            (∃ pages, exec (add_partition_query table bucket_loc
                (newPartitionOf ev region)) = Except.ok pages)
            ∧ ∀ days, expiration = some days → days ≠ 0 →
                ∃ pages, exec (drop_partition_query table bucket_loc
                  (oldPartitionOf ev days region)) = Except.ok pages) := by
  intro regions
  induction regions with
  | nil => simp [lambda_handler_loop]
  | cons region rest ih =>
    rw [List.forall_mem_cons]
    simp only [lambda_handler_loop]
    cases hadd : exec (add_partition_query table bucket_loc (newPartitionOf ev region)) with
    | error e => simp [hadd]
    | ok pages0 =>
      cases expiration with
      | none => simp [hadd, ih]
      | some days =>
        by_cases hd : days = 0
        · subst hd
          simp [hadd, ih]
        · cases hdrop : exec (drop_partition_query table bucket_loc
              (oldPartitionOf ev days region)) with
          | error e2 => simp [hadd, hdrop, hd]
          | ok p2 => simp [hadd, hdrop, hd, ih]

/-- With an expiration of exactly 0 days the loop behaves identically to
one with no retention policy. -/
theorem lambda_handler_loop_zero_eq_none
    (exec : String → Except QueryError (List ResultSet))
    (table bucket_loc : String) (ev : ParsedTime) :
    ∀ regions : List String,
      lambda_handler_loop exec table bucket_loc ev (some 0) regions
        = lambda_handler_loop exec table bucket_loc ev none regions := by
  intro regions
  induction regions with
  | nil => rfl
  | cons region rest ih =>
    simp only [lambda_handler_loop]
    cases exec (add_partition_query table bucket_loc (newPartitionOf ev region)) with
    | error e => rfl
    | ok p => simp [ih]

/-- With an expiration of exactly 0 days, every query the loop submits is
an ADD query of some region. -/
theorem lambda_handler_loop_zero_trace
    (exec : String → Except QueryError (List ResultSet))
    (table bucket_loc : String) (ev : ParsedTime) :
    ∀ regions : List String,
      ∀ q ∈ (lambda_handler_loop exec table bucket_loc ev (some 0) regions).2,
        ∃ region ∈ regions,
          q = add_partition_query table bucket_loc (newPartitionOf ev region) := by
  intro regions
  induction regions with
  | nil => intro q hq; simp [lambda_handler_loop] at hq
  | cons region rest ih =>
    intro q hq
    simp only [lambda_handler_loop] at hq
    cases hadd : exec (add_partition_query table bucket_loc (newPartitionOf ev region)) with
    | error e =>
      rw [hadd] at hq
      simp at hq
      exact ⟨region, List.mem_cons_self _ _, hq⟩
    | ok p =>
      rw [hadd] at hq
      simp at hq
      rcases hq with rfl | hq
      · exact ⟨region, List.mem_cons_self _ _, rfl⟩
      · obtain ⟨r2, hr2, hq2⟩ := ih q hq
        exact ⟨r2, List.mem_cons_of_mem _ hr2, hq2⟩

/-- Counterexample to C4 as stated: one region, a 90-day retention, an
Athena stub on which the (single) ADD succeeds and the DROP fails.  Every
`add_partition` call succeeds, yet the handler does not return success:
the DROP failure propagates, because `lambda_handler` has no try/except
around `drop_partition`. -/
theorem claim_C4_counterexample :
    c4exec (add_partition_query "tbl" "ct/AWSLogs/123/CloudTrail"
        (newPartitionOf ⟨2020, 9, 15, 10, 0, 0, 0⟩ "us-east-1")) = Except.ok []
    ∧ (lambda_handler c4exec "ct" "123" "tbl" ⟨2020, 9, 15, 10, 0, 0, 0⟩
        ["us-east-1"] (some 90)).1
      = Except.error (QueryError.queryFailed "drop-failed")
    ∧ (lambda_handler c4exec "ct" "123" "tbl" ⟨2020, 9, 15, 10, 0, 0, 0⟩
        ["us-east-1"] (some 90)).1 ≠ Except.ok true :=
  ⟨rfl, rfl, fun h => Except.noConfusion h⟩

/-- C4 amended: the pass returns overall success exactly when every ADD
succeeds AND every DROP it issues (one per region, when a truthy
retention is configured) succeeds; a DROP failure for an expired
partition is not caught — it propagates and fails the pass. -/
theorem claim_C4_success_iff
    (exec : String → Except QueryError (List ResultSet))
    (bucket account_id table : String) (ev : ParsedTime)
    (regions : List String) (expiration : Option Int) :
    (lambda_handler exec bucket account_id table ev regions expiration).1
        = Except.ok true
      ↔ ∀ region ∈ regions,
          (∃ pages, exec (add_partition_query table
              (bucket ++ "/AWSLogs/" ++ account_id ++ "/CloudTrail")
              (newPartitionOf ev region)) = Except.ok pages)
          ∧ ∀ days, expiration = some days → days ≠ 0 →
              ∃ pages, exec (drop_partition_query table
                (bucket ++ "/AWSLogs/" ++ account_id ++ "/CloudTrail")
                (oldPartitionOf ev days region)) = Except.ok pages :=
  lambda_handler_loop_ok_iff exec table
    (bucket ++ "/AWSLogs/" ++ account_id ++ "/CloudTrail") ev expiration regions

/-- C10: an expiration of exactly 0 days is reported by the lifecycle
parser (`some 0`), yet the gate `if helper.expiration_after_days:` tests
Python truthiness, so the pass behaves identically to one with no
retention policy at all: same outcome and same submitted queries, and
every submitted query is an ADD query — no DROP is issued for any
region. -/
theorem claim_C10_zero_expiration_no_drop
    (exec : String → Except QueryError (List ResultSet))
    (bucket account_id table : String) (ev : ParsedTime)
    (regions : List String) :
    parse_lifeycle_rules_for_expiration [some 0] = some 0
    ∧ lambda_handler exec bucket account_id table ev regions (some 0)
        = lambda_handler exec bucket account_id table ev regions none
    ∧ ∀ q ∈ (lambda_handler exec bucket account_id table ev regions (some 0)).2,
        ∃ region ∈ regions,
          q = add_partition_query table
            (bucket ++ "/AWSLogs/" ++ account_id ++ "/CloudTrail")
            (newPartitionOf ev region) :=
  ⟨rfl,
   lambda_handler_loop_zero_eq_none exec table
     (bucket ++ "/AWSLogs/" ++ account_id ++ "/CloudTrail") ev regions,
   lambda_handler_loop_zero_trace exec table
     (bucket ++ "/AWSLogs/" ++ account_id ++ "/CloudTrail") ev regions⟩

end Reloader

